import Mathlib

/-!
Verification development for the dnt build tool.

This file gives a shallow embedding of two parts of the code base:

* `src/lib/shims.ts` — the shim resolution policy
  (`shimOptionsToTransformShims` and the descriptor producers), and
* the build orchestrator file — `createPackageJson` (package manifest
  synthesis) and the generated test harness
  (`createTestLauncherScript` / `getRunTestDefinitionsCode`:
  `runTestDefinitions`, `getTestContext().step`, the `main` loop).

Definitions are translated from the TypeScript source; theorems settle the
frozen claims about the spec.
-/

/- ===================================================================
   Part 1. Shim model (src/lib/shims.ts)
   =================================================================== -/

/-- A `GlobalName` from transform.ts: the source allows a plain string or
`{name, typeOnly}`; a plain string means `typeOnly` is absent (false). -/
structure GlobalName where
  name : String
  typeOnly : Bool
deriving DecidableEq, Repr

/-- The `package` field of a `Shim`: `{name, version?}` (the "buffer" shim
has no version). -/
structure ShimPackageRef where
  name : String
  version : Option String
deriving DecidableEq, Repr

/-- A shim descriptor (`Shim` in transform.ts): a package reference plus the
global names it provides. -/
structure Shim where
  package : ShimPackageRef
  globalNames : List GlobalName
deriving DecidableEq, Repr

/-- `typeOnly(name)` helper of shims.ts lines 202-207. -/
def typeOnly (name : String) : GlobalName :=
  { name := name, typeOnly := true }

/-- `ShimValue = boolean | "dev"` (shims.ts line 11): `enabled` is `true`,
`disabled` is `false`, `dev` is the string `"dev"`. -/
inductive ShimValue where
  | enabled
  | disabled
  | dev
deriving DecidableEq, Repr

/-- The `deno` option of `ShimOptions` (line 21): either a plain `ShimValue`
or the object form `{ test: ShimValue }` (`DenoShimOptions`, line 44). -/
inductive DenoShimValue where
  | value (v : ShimValue)
  | testObject (test : ShimValue)
deriving DecidableEq, Repr

/-- `ShimOptions` (shims.ts lines 19-42); every field is optional
(`none` models an absent field, i.e. `undefined`). -/
structure ShimOptions where
  deno : Option DenoShimValue := none
  timers : Option ShimValue := none
  prompts : Option ShimValue := none
  blob : Option ShimValue := none
  crypto : Option ShimValue := none
  undici : Option ShimValue := none
  custom : Option (List Shim) := none
  customDev : Option (List Shim) := none

/-- `getDenoShim` (lines 89-97). -/
def getDenoShim (_ : Unit) : Shim :=
  { package := { name := "@deno/shim-deno", version := some "~0.1.1" }
    globalNames := [{ name := "Deno", typeOnly := false }] }

/-- `getDenoTestShim` (lines 99-107): the narrower test-registration
descriptor. -/
def getDenoTestShim (_ : Unit) : Shim :=
  { package := { name := "@deno/shim-deno-test", version := some "~0.2.0" }
    globalNames := [{ name := "Deno", typeOnly := false }] }

/-- `getCryptoShim` (lines 109-154). -/
def getCryptoShim (_ : Unit) : Shim :=
  { package := { name := "@deno/shim-crypto", version := some "~0.2.0" }
    globalNames :=
      [{ name := "crypto", typeOnly := false },
       typeOnly "Crypto",
       typeOnly "SubtleCrypto",
       typeOnly "AlgorithmIdentifier",
       typeOnly "Algorithm",
       typeOnly "RsaOaepParams",
       typeOnly "BufferSource",
       typeOnly "AesCtrParams",
       typeOnly "AesCbcParams",
       typeOnly "AesGcmParams",
       typeOnly "CryptoKey",
       typeOnly "KeyAlgorithm",
       typeOnly "KeyType",
       typeOnly "KeyUsage",
       typeOnly "EcdhKeyDeriveParams",
       typeOnly "HkdfParams",
       typeOnly "HashAlgorithmIdentifier",
       typeOnly "Pbkdf2Params",
       typeOnly "AesDerivedKeyParams",
       typeOnly "HmacImportParams",
       typeOnly "JsonWebKey",
       typeOnly "RsaOtherPrimesInfo",
       typeOnly "KeyFormat",
       typeOnly "RsaHashedKeyGenParams",
       typeOnly "RsaKeyGenParams",
       typeOnly "BigInteger",
       typeOnly "EcKeyGenParams",
       typeOnly "NamedCurve",
       typeOnly "CryptoKeyPair",
       typeOnly "AesKeyGenParams",
       typeOnly "HmacKeyGenParams",
       typeOnly "RsaHashedImportParams",
       typeOnly "EcKeyImportParams",
       typeOnly "AesKeyAlgorithm",
       typeOnly "RsaPssParams",
       typeOnly "EcdsaParams"] }

/-- `getBlobShim` (lines 156-163). -/
def getBlobShim (_ : Unit) : Shim :=
  { package := { name := "buffer", version := none }
    globalNames := [{ name := "Blob", typeOnly := false }] }

/-- `getPromptsShim` (lines 165-173). -/
def getPromptsShim (_ : Unit) : Shim :=
  { package := { name := "@deno/shim-prompts", version := some "~0.1.0" }
    globalNames :=
      [{ name := "alert", typeOnly := false },
       { name := "confirm", typeOnly := false },
       { name := "prompt", typeOnly := false }] }

/-- `getTimersShim` (lines 175-183). -/
def getTimersShim (_ : Unit) : Shim :=
  { package := { name := "@deno/shim-timers", version := some "~0.1.0" }
    globalNames :=
      [{ name := "setInterval", typeOnly := false },
       { name := "setTimeout", typeOnly := false }] }

/-- `getUndiciShim` (lines 185-200). -/
def getUndiciShim (_ : Unit) : Shim :=
  { package := { name := "undici", version := some "^4.12.1" }
    globalNames :=
      [{ name := "fetch", typeOnly := false },
       { name := "File", typeOnly := false },
       { name := "FormData", typeOnly := false },
       { name := "Headers", typeOnly := false },
       { name := "Request", typeOnly := false },
       { name := "Response", typeOnly := false }] }

/-- The inner `add` function of `shimOptionsToTransformShims`
(lines 79-86), acting on the `(shims, testShims)` state: `true` pushes the
descriptor to both lists, `"dev"` only to the test list, anything else
(false or absent) pushes nothing. -/
def add (option : Option ShimValue) (getShim : Unit → Shim)
    (st : List Shim × List Shim) : List Shim × List Shim :=
  match option with
  | some ShimValue.enabled => (st.1 ++ [getShim ()], st.2 ++ [getShim ()])
  | some ShimValue.dev => (st.1, st.2 ++ [getShim ()])
  | _ => st

/-- The `deno` dispatch of lines 55-59: the object form calls
`add(options.deno.test, getDenoTestShim)`, otherwise
`add(options.deno, getDenoShim)`. -/
def addDeno (d : Option DenoShimValue) (st : List Shim × List Shim) :
    List Shim × List Shim :=
  match d with
  | some (DenoShimValue.testObject t) => add (some t) getDenoTestShim st
  | some (DenoShimValue.value v) => add (some v) getDenoShim st
  | none => add none getDenoShim st

/-- Lines 66-69: user-supplied custom shims are pushed to both lists. -/
def addCustom (c : Option (List Shim)) (st : List Shim × List Shim) :
    List Shim × List Shim :=
  match c with
  | some cs => (st.1 ++ cs, st.2 ++ cs)
  | none => st

/-- Lines 70-72: `customDev` shims are pushed only to the test list. -/
def addCustomDev (c : Option (List Shim)) (st : List Shim × List Shim) :
    List Shim × List Shim :=
  match c with
  | some cs => (st.1, st.2 ++ cs)
  | none => st

/-- `shimOptionsToTransformShims` (shims.ts lines 51-87), returning the
`(shims, testShims)` pair; stage order follows the source: deno, blob,
crypto, prompts, timers, undici, custom, customDev. -/
def shimOptionsToTransformShims (options : ShimOptions) :
    List Shim × List Shim :=
  addCustomDev options.customDev
    (addCustom options.custom
      (add options.undici getUndiciShim
        (add options.timers getTimersShim
          (add options.prompts getPromptsShim
            (add options.crypto getCryptoShim
              (add options.blob getBlobShim
                (addDeno options.deno ([], []))))))))

/-- Number of occurrences of the descriptor `s` in a shim list. -/
def occs (s : Shim) (l : List Shim) : Nat :=
  (l.filter (fun x => decide (x = s))).length

/-- Contribution of one `add` stage to the distributed list, as a count of
the descriptor `s`. -/
def capDistOccs (v : Option ShimValue) (g s : Shim) : Nat :=
  match v with
  | some ShimValue.enabled => occs s [g]
  | _ => 0

/-- Contribution of one `add` stage to the test list, as a count of the
descriptor `s`. -/
def capTestOccs (v : Option ShimValue) (g s : Shim) : Nat :=
  match v with
  | some ShimValue.enabled => occs s [g]
  | some ShimValue.dev => occs s [g]
  | _ => 0

/-- Contribution of the deno stage to the distributed list. -/
def denoDistOccs (d : Option DenoShimValue) (s : Shim) : Nat :=
  match d with
  | some (DenoShimValue.testObject t) => capDistOccs (some t) (getDenoTestShim ()) s
  | some (DenoShimValue.value v) => capDistOccs (some v) (getDenoShim ()) s
  | none => 0

/-- Contribution of the deno stage to the test list. -/
def denoTestOccs (d : Option DenoShimValue) (s : Shim) : Nat :=
  match d with
  | some (DenoShimValue.testObject t) => capTestOccs (some t) (getDenoTestShim ()) s
  | some (DenoShimValue.value v) => capTestOccs (some v) (getDenoShim ()) s
  | none => 0

/- ===================================================================
   Part 2. Package manifest model (`createPackageJson`, build file
   lines 204-278), over a small model of JavaScript objects.
   =================================================================== -/

/-- A JavaScript value, as far as the manifest code needs: strings, objects
(ordered key/value lists) and `undefined` (a key assigned `undefined` stays
present on the object but is dropped by `JSON.stringify`). -/
inductive JsVal where
  | str (s : String)
  | obj (entries : List (String × JsVal))
  | undef

/-- A JavaScript object: its own enumerable entries in insertion order. -/
abbrev JsObj := List (String × JsVal)

/-- Property read: the first entry with the key (real JS objects have no
duplicate keys, so this is the entry). -/
def oget : JsObj → String → Option JsVal
  | [], _ => none
  | e :: rest, k => if e.1 = k then some e.2 else oget rest k

/-- Property read with JS `?? `/`?.` semantics: a key present with value
`undefined` behaves like an absent key. -/
def ogetDefined (o : JsObj) (k : String) : Option JsVal :=
  match oget o k with
  | some JsVal.undef => none
  | v => v

/-- Property assignment: an existing key keeps its position and gets the new
value, a new key is appended (JS object literal / spread semantics). -/
def oset : JsObj → String → JsVal → JsObj
  | [], k, v => [(k, v)]
  | e :: rest, k, v => if e.1 = k then (k, v) :: rest else e :: oset rest k v

/-- Spreading an entry list onto an object: assignments in order, later
entries overriding earlier ones (`{...a, ...b}`). -/
def spread (a : JsObj) (es : List (String × JsVal)) : JsObj :=
  es.foldl (fun acc e => oset acc e.1 e.2) a

/-- Last-wins lookup in an entry list: the value the entries contribute for
key `k` when spread onto an object. -/
def lookupLast : List (String × JsVal) → String → Option JsVal
  | [], _ => none
  | e :: rest, k =>
    match lookupLast rest k with
    | some v => some v
    | none => if e.1 = k then some e.2 else none

/-- First-defined choice on optional values (models which source wins in a
chain of spreads). -/
def ofirst : Option JsVal → Option JsVal → Option JsVal
  | some v, _ => some v
  | none, b => b

/-- Reads the entries of an object-valued property (`[]` when the property
is absent, `undefined`, or not an object) — used to model spreading
`options.package.x ?? {}`. -/
def ogetObj (o : JsObj) (k : String) : JsObj :=
  match ogetDefined o k with
  | some (JsVal.obj es) => es
  | _ => []

/-- A `Dependency` of transform.ts: `{name, version}`. -/
structure Dependency where
  name : String
  version : String

/-- The parts of the distributed `TransformOutput` that `createPackageJson`
reads. -/
structure TransformOutput where
  entryPoints : List String
  dependencies : List Dependency
  shimUsed : Bool

/-- The `TestOutput` of the build file (lines 311-316), as far as manifest
generation and the harness need it. -/
structure TestOutput where
  entryPoints : List String
  shimUsed : Bool
  dependencies : List Dependency

/-- The resolved shim package (`options.shimPackage ?? {name: "deno.ns",
version: "0.5.0"}`, lines 51-54). -/
structure ShimPackage where
  name : String
  version : String

/-- One value of the `mappings` record (lines 31-41): the package name to
map to and an optional version; `Object.values(specifierMappings)` order. -/
structure SpecifierMapping where
  name : String
  version : Option String

/-- Everything `createPackageJson` (lines 204-278) reads: the distributed
transform output, the optional test output, the resolved shim package, the
specifier mappings (already keyed; only their values are used here) and the
user's package template object. -/
structure BuildInput where
  transformOutput : TransformOutput
  testOutput : Option TestOutput
  shimPackage : ShimPackage
  specifierMappings : Option (List SpecifierMapping)
  package : JsObj

/-- `str.replace(/\.ts$/i, repl)`: rewrites a final `.ts` extension
(case-insensitively) to `repl`. Implemented over the character list so the
definition evaluates by reduction. -/
def replaceTsSuffix (s repl : String) : String :=
  if List.isSuffixOf ".ts".data s.data || List.isSuffixOf ".tS".data s.data
      || List.isSuffixOf ".Ts".data s.data || List.isSuffixOf ".TS".data s.data
  then String.mk (s.data.take (s.data.length - 3)) ++ repl
  else s

/-- `transformOutput.dependencies.map((d) => [d.name, d.version])`
(lines 213-215). -/
def transformDepEntries (i : BuildInput) : List (String × JsVal) :=
  i.transformOutput.dependencies.map (fun d => (d.name, JsVal.str d.version))

/-- JS truthiness of the optional `version` field: `undefined` and the empty
string are falsy (`.filter((v) => v.version)`, line 219). -/
def versionTruthy : Option String → Bool
  | some s => decide (s ≠ "")
  | none => false

/-- Lines 217-221: entries from specifier mappings that declare a (truthy)
version; `{}` when `specifierMappings` is absent. -/
def mappingDepEntries (i : BuildInput) : List (String × JsVal) :=
  match i.specifierMappings with
  | some ms =>
    (ms.filter (fun v => versionTruthy v.version)).map
      (fun v => (v.name, JsVal.str (v.version.getD "")))
  | none => []

/-- Lines 222-227: the shim package entry, present only when the distributed
transform reported the shim was used. -/
def shimDepEntries (i : BuildInput) : List (String × JsVal) :=
  if i.transformOutput.shimUsed
  then [(i.shimPackage.name, JsVal.str i.shimPackage.version)]
  else []

/-- Line 229: `options.package.dependencies ?? {}`. -/
def userDepEntries (i : BuildInput) : List (String × JsVal) :=
  ogetObj i.package "dependencies"

/-- The computed `dependencies` object (lines 211-230): one object literal
spreading the four sources in order. -/
def dependenciesObj (i : BuildInput) : JsObj :=
  spread (spread (spread (spread [] (transformDepEntries i))
    (mappingDepEntries i)) (shimDepEntries i)) (userDepEntries i)

/-- `testOutput.dependencies.map((d) => [d.name, d.version])` (line 235). -/
def testDepEntries (t : TestOutput) : List (String × JsVal) :=
  t.dependencies.map (fun d => (d.name, JsVal.str d.version))

/-- Lines 237-243: the shim entry of `devDependencies`, added only when the
test build used the shim and the shim package name is not already a key of
the computed `dependencies` object. -/
def devShimEntries (i : BuildInput) (t : TestOutput) : List (String × JsVal) :=
  if t.shimUsed && !((dependenciesObj i).any (fun e => decide (e.1 = i.shimPackage.name)))
  then [(i.shimPackage.name, JsVal.str i.shimPackage.version)]
  else []

/-- Line 245: `options.package.devDependencies ?? {}`. -/
def userDevDepEntries (i : BuildInput) : List (String × JsVal) :=
  ogetObj i.package "devDependencies"

/-- The computed `devDependencies` object when tests exist (lines 232-246). -/
def devDependenciesObj (i : BuildInput) (t : TestOutput) : JsObj :=
  spread (spread (spread [] (testDepEntries t)) (devShimEntries i t))
    (userDevDepEntries i)

/-- The `devDependencies` value of the manifest (lines 231-247): the merge
above when tests exist, otherwise the raw user field (possibly
`undefined`). -/
def devDependenciesVal (i : BuildInput) : JsVal :=
  match i.testOutput with
  | some t => JsVal.obj (devDependenciesObj i t)
  | none => (ogetDefined i.package "devDependencies").getD JsVal.undef

/-- The `scripts` value (lines 248-254): with tests, a fixed `test` script
overridden by user scripts; otherwise the raw user field. -/
def scriptsVal (i : BuildInput) : JsVal :=
  match i.testOutput with
  | some _ =>
    JsVal.obj (spread (spread [] [("test", JsVal.str "node test_runner.js")])
      (ogetObj i.package "scripts"))
  | none => (ogetDefined i.package "scripts").getD JsVal.undef

/-- `./esm/` and `./cjs/` entry paths use the first entry point with `.ts`
rewritten to `.js` (lines 205-207). -/
def entryPointJsPath (ep : String) : String := replaceTsSuffix ep ".js"

/-- The `types` path uses `.d.ts` instead (lines 208-210). -/
def entryPointDtsPath (ep : String) : String := replaceTsSuffix ep ".d.ts"

/-- Default for the `module` field: `./esm/<entry>.js` (line 258). -/
def moduleDefault (ep : String) : JsVal :=
  JsVal.str ("./esm/" ++ entryPointJsPath ep)

/-- Default for the `main` field: `./cjs/<entry>.js` (line 259). -/
def mainDefault (ep : String) : JsVal :=
  JsVal.str ("./cjs/" ++ entryPointJsPath ep)

/-- Default for the `types` field: `./types/<entry>.d.ts` (line 260). -/
def typesDefault (ep : String) : JsVal :=
  JsVal.str ("./types/" ++ entryPointDtsPath ep)

/-- `options.package.types ?? typesDefault` — used for both the top-level
`types` field and the `types` key inside `exports["."]` (lines 260, 266). -/
def typesVal (i : BuildInput) (ep : String) : JsVal :=
  (ogetDefined i.package "types").getD (typesDefault ep)

/-- The entries of the user's `exports["."]` object
(`options.package.exports?.["."] ?? {}`, line 267). -/
def userDotEntries (i : BuildInput) : List (String × JsVal) :=
  ogetObj (ogetObj i.package "exports") "."

/-- The default entries of `exports["."]` before the user spread
(lines 264-266): `import`, `require`, `types` in literal order. -/
def exportsDotDefaults (i : BuildInput) (ep : String) : JsObj :=
  [("import", JsVal.str ("./esm/" ++ entryPointJsPath ep)),
   ("require", JsVal.str ("./cjs/" ++ entryPointJsPath ep)),
   ("types", typesVal i ep)]

/-- The `exports["."]` object (lines 263-268): the defaults with the user's
`exports["."]` entries spread last. -/
def exportsDotObj (i : BuildInput) (ep : String) : JsObj :=
  spread (exportsDotDefaults i ep) (userDotEntries i)

/-- The `exports` object (lines 261-269): the user's `exports` entries with
the `"."` key then assigned to the computed object. -/
def exportsObj (i : BuildInput) (ep : String) : JsObj :=
  oset (spread [] (ogetObj i.package "exports")) "." (JsVal.obj (exportsDotObj i ep))

/-- The final `packageJsonObj` literal (lines 256-273): the user template
spread first, then `module`, `main`, `types`, `exports`, `scripts`,
`dependencies`, `devDependencies` assigned in literal order. -/
def packageJsonObj (i : BuildInput) (ep : String) : JsObj :=
  oset (oset (oset (oset (oset (oset (oset (spread [] i.package)
    "module" ((ogetDefined i.package "module").getD (moduleDefault ep)))
    "main" ((ogetDefined i.package "main").getD (mainDefault ep)))
    "types" (typesVal i ep))
    "exports" (JsVal.obj (exportsObj i ep)))
    "scripts" (scriptsVal i))
    "dependencies" (JsVal.obj (dependenciesObj i)))
    "devDependencies" (devDependenciesVal i)

/-- `createPackageJson` as a pure function of its inputs. The source reads
`transformOutput.entryPoints[0]`; with no entry points that JavaScript
access fails, modelled by `none`. -/
def createPackageJson (i : BuildInput) : Option JsObj :=
  match i.transformOutput.entryPoints with
  | [] => none
  | ep :: _ => some (packageJsonObj i ep)

/-- JSON string escaping for `JSON.stringify` (quotes, backslashes and
newlines; enough for the manifest model). -/
def escapeJsonChar (c : Char) : String :=
  if c = '"' then "\\\""
  else if c = '\\' then "\\\\"
  else if c = '\n' then "\\n"
  else String.singleton c

/-- A JSON string literal. -/
def quoteJson (s : String) : String :=
  "\"" ++ String.join (s.data.map escapeJsonChar) ++ "\""

/-- `indent` spaces of two-space units, as produced by
`JSON.stringify(x, undefined, 2)`. -/
def jsonPad (depth : Nat) : String :=
  String.join (List.replicate depth "  ")

/-- Is the value kept by `JSON.stringify`? Keys with value `undefined` are
dropped from objects. -/
def isDef : JsVal → Bool
  | JsVal.undef => false
  | _ => true

mutual

/-- Rendering of `JSON.stringify(v, undefined, 2)` at a nesting depth. -/
def jsonRender (depth : Nat) : JsVal → String
  | JsVal.str s => quoteJson s
  | JsVal.undef => "undefined"
  | JsVal.obj es =>
    match jsonRenderEntries (depth + 1) es with
    | [] => "\x7b\x7d"
    | parts =>
      "\x7b\n" ++ String.intercalate ",\n" parts ++ "\n" ++ jsonPad depth ++ "\x7d"
termination_by v => (2 * sizeOf v, 0)

/-- Rendered `"key": value` lines of an object, skipping
`undefined`-valued keys. -/
def jsonRenderEntries (depth : Nat) : List (String × JsVal) → List String
  | [] => []
  | (k, v) :: rest =>
    if isDef v
    then (jsonPad depth ++ quoteJson k ++ ": " ++ jsonRender depth v) ::
      jsonRenderEntries depth rest
    else jsonRenderEntries depth rest
termination_by es => (2 * sizeOf es, 1)

end

/-- `JSON.stringify(packageJsonObj, undefined, 2)` (line 276). -/
def createPackageJsonText (i : BuildInput) : Option String :=
  (createPackageJson i).map (fun o => jsonRender 0 (JsVal.obj o))

/-- The dependency merge as the spec describes it: the first defined value
among, in override order, (4) the user-declared `dependencies`, (3) the
shim package entry when the distributed transform used the shim, (2) then
specifier mappings that declare a version, (1) then the transform output's
dependencies ("declares a version" is the code's truthiness test: a
non-empty version string). -/
def claimedDependencyMerge (i : BuildInput) (k : String) : Option JsVal :=
  ofirst (lookupLast (userDepEntries i) k)
    (ofirst (if i.transformOutput.shimUsed && decide (k = i.shimPackage.name)
             then some (JsVal.str i.shimPackage.version) else none)
      (ofirst (lookupLast (mappingDepEntries i) k)
        (lookupLast (transformDepEntries i) k)))

/- ===================================================================
   Part 3. Generated test harness (`getRunTestDefinitionsCode`,
   build file lines 465-601, and the `main` loop of
   `createTestLauncherScript`, lines 392-430).
   =================================================================== -/

/-- Status of a test context node: `getTestContext()` starts at `"ok"`, a
step is set to `"pending"` on creation and ends in `"ok"`, `"fail"` or
`"ignored"`. -/
inductive TestStatus where
  | ok
  | pending
  | fail
  | ignored
deriving DecidableEq, Repr

/-- A test context node (`getTestContext()`, lines 509-588): its step name,
its status and its child contexts in creation order. The recorded error
object and the output formatting are not modelled; only name, status and
children are observed by the claims. -/
inductive TestContext where
  | mk (name : String) (status : TestStatus) (children : List TestContext)

/-- The step name of a context. -/
def TestContext.name : TestContext → String
  | TestContext.mk n _ _ => n

/-- The stored status of a context. -/
def TestContext.status : TestContext → TestStatus
  | TestContext.mk _ s _ => s

/-- The direct children of a context. -/
def TestContext.children : TestContext → List TestContext
  | TestContext.mk _ _ c => c

/-- Is the status `"fail"` or `"pending"`? (The predicate of
`hasFailingChild`, line 515.) -/
def failingOrPending : TestStatus → Bool
  | TestStatus.fail => true
  | TestStatus.pending => true
  | _ => false

/-- `this.children.some(c => c.status === "fail" || c.status === "pending")`
over a child list. -/
def anyFailingOrPending (children : List TestContext) : Bool :=
  children.any (fun c => failingOrPending c.status)

/-- The `hasFailingChild` getter (lines 514-516). -/
def hasFailingChild (c : TestContext) : Bool :=
  anyFailingOrPending c.children

/-- A test or step body, as the harness observes it. A body either returns,
throws, or invokes `context.step` on a step definition and continues; the
caller either awaits the step to completion (`stepAwaited`) or starts it
without awaiting (`stepSpawned`), in which case the child context has not
settled (still `"pending"`) when the enclosing body completes. -/
inductive TestBody where
  | ret
  | raise
  | stepAwaited (name : String) (isIgnored : Bool) (body : TestBody) (rest : TestBody)
  | stepSpawned (name : String) (isIgnored : Bool) (body : TestBody) (rest : TestBody)

/-- Runs a body against a fresh context's child list. Returns the direct
children created by the body in order, whether the body threw, and the log
of names of definitions whose `fn` was invoked while it ran. An awaited
step contributes its settled context — the `step` logic of lines 541-567,
restated standalone as `stepEval` below (see `runBody_stepAwaited`); a
spawned non-ignored step contributes a `"pending"` context (its own `fn`
has been invoked but the step has not settled when this body completes); a
spawned ignored step is marked `"ignored"` synchronously and its `fn` is
never invoked (lines 550-553 run before any await point). A step's failure
never aborts the body — `step` catches and returns `false` (lines 555-567);
only reaching `raise` makes the body itself throw. -/
def runBody : TestBody → List TestContext × Bool × List String
  | TestBody.ret => ([], false, [])
  | TestBody.raise => ([], true, [])
  | TestBody.stepAwaited n ig b rest =>
    if ig then
      (TestContext.mk n TestStatus.ignored [] :: (runBody rest).1,
        (runBody rest).2.1, (runBody rest).2.2)
    else if (runBody b).2.1 then
      (TestContext.mk n TestStatus.fail (runBody b).1 :: (runBody rest).1,
        (runBody rest).2.1, (n :: (runBody b).2.2) ++ (runBody rest).2.2)
    else if anyFailingOrPending (runBody b).1 then
      (TestContext.mk n TestStatus.fail (runBody b).1 :: (runBody rest).1,
        (runBody rest).2.1, (n :: (runBody b).2.2) ++ (runBody rest).2.2)
    else
      (TestContext.mk n TestStatus.ok (runBody b).1 :: (runBody rest).1,
        (runBody rest).2.1, (n :: (runBody b).2.2) ++ (runBody rest).2.2)
  | TestBody.stepSpawned n ig b rest =>
    if ig then
      (TestContext.mk n TestStatus.ignored [] :: (runBody rest).1,
        (runBody rest).2.1, (runBody rest).2.2)
    else
      (TestContext.mk n TestStatus.pending (runBody b).1 :: (runBody rest).1,
        (runBody rest).2.1, (n :: (runBody b).2.2) ++ (runBody rest).2.2)

/-- The `step` function of `getTestContext()` (lines 541-567), evaluated to
completion: an ignored step sets its context to `"ignored"` and returns
`false` without invoking the body; otherwise the body runs — on a throw the
status is `"fail"` and the result `false`; on normal completion the status
is `"ok"` unless a direct child is `"fail"` or `"pending"`, which turns the
stored status to `"fail"` with result `false` (lines 557-561). Returns the
settled context, the boolean the step call resolves to, and the invocation
log. `runBody_stepAwaited` below shows an awaited step inside `runBody`
behaves exactly like this function. -/
def stepEval (n : String) (ig : Bool) (b : TestBody) :
    TestContext × Bool × List String :=
  if ig then (TestContext.mk n TestStatus.ignored [], false, [])
  else if (runBody b).2.1 then
    (TestContext.mk n TestStatus.fail (runBody b).1, false, n :: (runBody b).2.2)
  else if anyFailingOrPending (runBody b).1 then
    (TestContext.mk n TestStatus.fail (runBody b).1, false, n :: (runBody b).2.2)
  else (TestContext.mk n TestStatus.ok (runBody b).1, true, n :: (runBody b).2.2)

/-- A registered test definition: `{name, ignored?, fn}`. -/
structure TestDefinition where
  name : String
  ignored : Bool
  fn : TestBody

/-- How one top-level definition is reported by `runTestDefinitions`
(lines 471-496): ` ignored` without running the body, or `ok`/`fail`. -/
inductive RunOutcome where
  | ignored
  | ok
  | fail
deriving DecidableEq, Repr

/-- Running one top-level definition (lines 471-496): an ignored definition
prints ` ignored` and is skipped; otherwise the body runs against a fresh
context — a throw records a failure, a completed body with a `"fail"` or
`"pending"` direct child records a failure ("Had failing test step."),
otherwise the test passes. Returns the outcome and the invocation log
(names of definitions whose `fn` ran). A failure entry is pushed to
`testFailures` exactly when the outcome is `fail`. -/
def runDef (d : TestDefinition) : RunOutcome × List String :=
  if d.ignored then (RunOutcome.ignored, [])
  else if (runBody d.fn).2.1 then (RunOutcome.fail, d.name :: (runBody d.fn).2.2)
  else if anyFailingOrPending (runBody d.fn).1 then
    (RunOutcome.fail, d.name :: (runBody d.fn).2.2)
  else (RunOutcome.ok, d.name :: (runBody d.fn).2.2)

/-- `runTestDefinitions` over a drained definition list (lines 468-496):
definitions run sequentially in registration order; per definition the name
and outcome are reported. Returns the report and the concatenated
invocation log. -/
def runTestDefinitions :
    List TestDefinition → List (String × RunOutcome) × List String
  | [] => ([], [])
  | d :: rest =>
    ((d.name, (runDef d).1) :: (runTestDefinitions rest).1,
      (runDef d).2 ++ (runTestDefinitions rest).2)

/-- Did a drain pass record at least one failure (`testFailures.length > 0`,
line 498)? -/
def drainFails (defs : List TestDefinition) : Bool :=
  (runTestDefinitions defs).1.any (fun p => decide (p.2 = RunOutcome.fail))

/-- The two output formats a single entry point is exercised under. -/
inductive ModuleFormat where
  | cjs
  | esm
deriving DecidableEq, Repr

/-- One entry of the harness's `filePaths` list together with the test
definitions registered when its CommonJS and its ESM build are loaded. -/
structure EntryPointModule where
  path : String
  cjsDefs : List TestDefinition
  esmDefs : List TestDefinition

/-- The generated `main()` loop (lines 409-420) together with the
`process.exit(1)` at the end of a failing drain pass (lines 498-506): for
each file path in order, the CommonJS build is loaded and drained, then the
ESM build; a drain pass that recorded a failure prints the failure summary
and exits the process with code 1 on the spot, so nothing after it runs.
Returns the executed (path, format) passes in order and the process exit
code. -/
def harnessMain : List EntryPointModule → List (String × ModuleFormat) × Nat
  | [] => ([], 0)
  | ep :: rest =>
    if drainFails ep.cjsDefs then ([(ep.path, ModuleFormat.cjs)], 1)
    else if drainFails ep.esmDefs then
      ([(ep.path, ModuleFormat.cjs), (ep.path, ModuleFormat.esm)], 1)
    else
      ((ep.path, ModuleFormat.cjs) :: (ep.path, ModuleFormat.esm) ::
        (harnessMain rest).1, (harnessMain rest).2)

/-- The canonical pass sequence the spec describes: for each entry point in
list order, its CommonJS pass then its ESM pass, each tagged with whether
that drain pass records a failure. -/
def passSeq : List EntryPointModule → List ((String × ModuleFormat) × Bool)
  | [] => []
  | ep :: rest =>
    ((ep.path, ModuleFormat.cjs), drainFails ep.cjsDefs) ::
      ((ep.path, ModuleFormat.esm), drainFails ep.esmDefs) :: passSeq rest

/-- Truncation of a tagged pass sequence after its first failing pass:
returns the passes that execute and whether a failure was recorded. -/
def runUntilFirstFail :
    List ((String × ModuleFormat) × Bool) → List (String × ModuleFormat) × Bool
  | [] => ([], false)
  | (p, f) :: rest =>
    if f then ([p], true)
    else ((p :: (runUntilFirstFail rest).1), (runUntilFirstFail rest).2)

/- ===================================================================
   Part 4. Auxiliary definitions for the claims: the capability index
   of the shim decision table, and concrete example inputs.
   =================================================================== -/

/-- The six capability options of `ShimOptions` that the per-capability
rule speaks about. -/
inductive Capability where
  | deno
  | blob
  | crypto
  | prompts
  | timers
  | undici
deriving DecidableEq, Repr

/-- The descriptor each capability's rule appends (for `deno`, the
full-namespace descriptor used for the plain option form). -/
def capDescriptor : Capability → Shim
  | Capability.deno => getDenoShim ()
  | Capability.blob => getBlobShim ()
  | Capability.crypto => getCryptoShim ()
  | Capability.prompts => getPromptsShim ()
  | Capability.timers => getTimersShim ()
  | Capability.undici => getUndiciShim ()

/-- The capability's option in its plain `ShimValue`-or-absent form:
`some x` when the option is the plain form `x` (with `some none` = absent);
`none` when the `deno` option is in this object form, which the
per-capability rule does not cover (see the runtime-namespace special
case). -/
def capOption (o : ShimOptions) : Capability → Option (Option ShimValue)
  | Capability.deno =>
    match o.deno with
    | some (DenoShimValue.value v) => some (some v)
    | some (DenoShimValue.testObject _) => none
    | none => some none
  | Capability.blob => some o.blob
  | Capability.crypto => some o.crypto
  | Capability.prompts => some o.prompts
  | Capability.timers => some o.timers
  | Capability.undici => some o.undici

/-- A build input whose manifest exercises all four dependency sources. -/
def c4Input : BuildInput :=
  { transformOutput :=
      { entryPoints := ["mod.ts"]
        dependencies := [{ name := "a", version := "1" }]
        shimUsed := true }
    testOutput := none
    shimPackage := { name := "deno.ns", version := "0.5.0" }
    specifierMappings := some [{ name := "b", version := some "2" }]
    package := [("dependencies", JsVal.obj [("c", JsVal.str "3")])] }

/-- A build input whose package template supplies `exports["."]` with only
an `import` key. -/
def c5Input : BuildInput :=
  { transformOutput :=
      { entryPoints := ["mod.ts"], dependencies := [], shimUsed := false }
    testOutput := none
    shimPackage := { name := "deno.ns", version := "0.5.0" }
    specifierMappings := none
    package :=
      [("exports", JsVal.obj [(".", JsVal.obj [("import", JsVal.str "./custom.js")])])] }

/-- A build input with tests whose template declares the shim package in
both `dependencies` and `devDependencies`. -/
def c6CexInput : BuildInput :=
  { transformOutput :=
      { entryPoints := ["mod.ts"], dependencies := [], shimUsed := false }
    testOutput := some { entryPoints := [], shimUsed := false, dependencies := [] }
    shimPackage := { name := "deno.ns", version := "0.5.0" }
    specifierMappings := none
    package :=
      [("dependencies", JsVal.obj [("deno.ns", JsVal.str "0.5.0")]),
       ("devDependencies", JsVal.obj [("deno.ns", JsVal.str "0.5.0")])] }

/-- A build input with tests where the shim package is a runtime dependency
and neither the test transform nor the user re-declares it. -/
def c6WitnessInput : BuildInput :=
  { transformOutput :=
      { entryPoints := ["mod.ts"], dependencies := [], shimUsed := false }
    testOutput := some { entryPoints := [], shimUsed := true, dependencies := [] }
    shimPackage := { name := "deno.ns", version := "0.5.0" }
    specifierMappings := none
    package := [("dependencies", JsVal.obj [("deno.ns", JsVal.str "0.5.0")])] }

/-- An entry point whose CommonJS pass has a throwing test and whose ESM
pass has a passing test. -/
def c7Module : EntryPointModule :=
  { path := "mod.js"
    cjsDefs := [{ name := "boom", ignored := false, fn := TestBody.raise }]
    esmDefs := [{ name := "fine", ignored := false, fn := TestBody.ret }] }

/-- A small build input for the determinism witness. -/
def c8Input : BuildInput :=
  { transformOutput :=
      { entryPoints := ["mod.ts"]
        dependencies := [{ name := "a", version := "1" }]
        shimUsed := true }
    testOutput := some { entryPoints := [], shimUsed := true, dependencies := [] }
    shimPackage := { name := "deno.ns", version := "0.5.0" }
    specifierMappings := none
    package := [("name", JsVal.str "pkg"), ("version", JsVal.str "0.1.0")] }

/- ===================================================================
   Part 5. Helper lemmas.
   =================================================================== -/

theorem occs_nil (s : Shim) : occs s [] = 0 := rfl

theorem occs_append (s : Shim) (a b : List Shim) :
    occs s (a ++ b) = occs s a + occs s b := by
  simp [occs, List.filter_append]

theorem occs_pos_iff_mem (s : Shim) (l : List Shim) :
    0 < occs s l ↔ s ∈ l := by
  induction l with
  | nil => simp [occs]
  | cons x xs ih =>
    by_cases h : x = s
    · subst h
      simp [occs, List.filter_cons]
    · simp [occs, List.filter_cons, h]
      constructor
      · intro hp
        exact Or.inr (ih.mp hp)
      · intro hm
        rcases hm with hm | hm
        · exact absurd hm.symm h
        · exact ih.mpr hm

theorem occs_add_fst (s : Shim) (v : Option ShimValue) (g : Unit → Shim)
    (st : List Shim × List Shim) :
    occs s (add v g st).1 = occs s st.1 + capDistOccs v (g ()) s := by
  match v with
  | some ShimValue.enabled => simp [add, capDistOccs, occs_append]
  | some ShimValue.dev => simp [add, capDistOccs]
  | some ShimValue.disabled => simp [add, capDistOccs]
  | none => simp [add, capDistOccs]

theorem occs_add_snd (s : Shim) (v : Option ShimValue) (g : Unit → Shim)
    (st : List Shim × List Shim) :
    occs s (add v g st).2 = occs s st.2 + capTestOccs v (g ()) s := by
  match v with
  | some ShimValue.enabled => simp [add, capTestOccs, occs_append]
  | some ShimValue.dev => simp [add, capTestOccs, occs_append]
  | some ShimValue.disabled => simp [add, capTestOccs]
  | none => simp [add, capTestOccs]

theorem occs_addDeno_fst (s : Shim) (d : Option DenoShimValue)
    (st : List Shim × List Shim) :
    occs s (addDeno d st).1 = occs s st.1 + denoDistOccs d s := by
  match d with
  | some (DenoShimValue.testObject t) => simp [addDeno, denoDistOccs, occs_add_fst]
  | some (DenoShimValue.value v) => simp [addDeno, denoDistOccs, occs_add_fst]
  | none => simp [addDeno, denoDistOccs, occs_add_fst, capDistOccs]

theorem occs_addDeno_snd (s : Shim) (d : Option DenoShimValue)
    (st : List Shim × List Shim) :
    occs s (addDeno d st).2 = occs s st.2 + denoTestOccs d s := by
  match d with
  | some (DenoShimValue.testObject t) => simp [addDeno, denoTestOccs, occs_add_snd]
  | some (DenoShimValue.value v) => simp [addDeno, denoTestOccs, occs_add_snd]
  | none => simp [addDeno, denoTestOccs, occs_add_snd, capTestOccs]

theorem occs_addCustom_fst (s : Shim) (c : Option (List Shim))
    (st : List Shim × List Shim) :
    occs s (addCustom c st).1 = occs s st.1 + occs s (c.getD []) := by
  match c with
  | some cs => simp [addCustom, occs_append]
  | none => simp [addCustom, occs_nil]

theorem occs_addCustom_snd (s : Shim) (c : Option (List Shim))
    (st : List Shim × List Shim) :
    occs s (addCustom c st).2 = occs s st.2 + occs s (c.getD []) := by
  match c with
  | some cs => simp [addCustom, occs_append]
  | none => simp [addCustom, occs_nil]

theorem occs_addCustomDev_fst (s : Shim) (c : Option (List Shim))
    (st : List Shim × List Shim) :
    occs s (addCustomDev c st).1 = occs s st.1 := by
  match c with
  | some cs => simp [addCustomDev]
  | none => simp [addCustomDev]

theorem occs_addCustomDev_snd (s : Shim) (c : Option (List Shim))
    (st : List Shim × List Shim) :
    occs s (addCustomDev c st).2 = occs s st.2 + occs s (c.getD []) := by
  match c with
  | some cs => simp [addCustomDev, occs_append]
  | none => simp [addCustomDev, occs_nil]

/-- Master count for the distributed list: each stage contributes
independently, in source order. -/
theorem occs_shims_fst (o : ShimOptions) (s : Shim) :
    occs s (shimOptionsToTransformShims o).1 =
      denoDistOccs o.deno s +
      capDistOccs o.blob (getBlobShim ()) s +
      capDistOccs o.crypto (getCryptoShim ()) s +
      capDistOccs o.prompts (getPromptsShim ()) s +
      capDistOccs o.timers (getTimersShim ()) s +
      capDistOccs o.undici (getUndiciShim ()) s +
      occs s (o.custom.getD []) := by
  simp only [shimOptionsToTransformShims, occs_addCustomDev_fst,
    occs_addCustom_fst, occs_add_fst, occs_addDeno_fst, occs_nil]
  omega

/-- Master count for the test list. -/
theorem occs_shims_snd (o : ShimOptions) (s : Shim) :
    occs s (shimOptionsToTransformShims o).2 =
      denoTestOccs o.deno s +
      capTestOccs o.blob (getBlobShim ()) s +
      capTestOccs o.crypto (getCryptoShim ()) s +
      capTestOccs o.prompts (getPromptsShim ()) s +
      capTestOccs o.timers (getTimersShim ()) s +
      capTestOccs o.undici (getUndiciShim ()) s +
      occs s (o.custom.getD []) +
      occs s (o.customDev.getD []) := by
  simp only [shimOptionsToTransformShims, occs_addCustomDev_snd,
    occs_addCustom_snd, occs_add_snd, occs_addDeno_snd, occs_nil]
  omega

theorem ofirst_none (b : Option JsVal) : ofirst none b = b := rfl

theorem ofirst_some (v : JsVal) (b : Option JsVal) : ofirst (some v) b = some v := rfl

theorem ofirst_none_right (a : Option JsVal) : ofirst a none = a := by
  cases a <;> rfl

theorem ofirst_assoc (a b c : Option JsVal) :
    ofirst (ofirst a b) c = ofirst a (ofirst b c) := by
  cases a <;> rfl

theorem oget_oset (o : JsObj) (k : String) (v : JsVal) (k2 : String) :
    oget (oset o k v) k2 = if k2 = k then some v else oget o k2 := by
  induction o with
  | nil =>
    by_cases h : k2 = k
    · subst h; simp [oset, oget]
    · simp only [oset, oget]
      rw [if_neg (fun hh : k = k2 => h hh.symm), if_neg h]
  | cons e rest ih =>
    by_cases he : e.1 = k
    · rw [oset, if_pos he]
      by_cases h : k2 = k
      · subst h; simp [oget]
      · rw [oget, if_neg (fun hh : k = k2 => h hh.symm), if_neg h, oget,
          if_neg (fun hh : e.1 = k2 => h (hh.symm.trans he))]
    · rw [oset, if_neg he]
      by_cases h : k2 = k
      · subst h
        rw [oget, if_neg (fun hh : e.1 = k2 => he hh), ih, if_pos rfl, if_pos rfl]
      · simp only [oget]
        by_cases hek : e.1 = k2
        · rw [if_pos hek, if_neg h, if_pos hek]
        · rw [if_neg hek, if_neg hek, ih, if_neg h]

theorem oget_spread (a : JsObj) (es : List (String × JsVal)) (k : String) :
    oget (spread a es) k = ofirst (lookupLast es k) (oget a k) := by
  induction es generalizing a with
  | nil => rfl
  | cons e rest ih =>
    show oget (spread (oset a e.1 e.2) rest) k = _
    rw [ih, oget_oset]
    cases h : lookupLast rest k with
    | some v => simp only [lookupLast, h, ofirst_some]
    | none =>
      simp only [lookupLast, h, ofirst_none]
      by_cases hk : e.1 = k
      · rw [if_pos hk, if_pos hk.symm, ofirst_some]
      · rw [if_neg hk, if_neg (fun hh : k = e.1 => hk hh.symm), ofirst_none]

theorem any_key_of_oget (o : JsObj) (k : String) (h : oget o k ≠ none) :
    o.any (fun e => decide (e.1 = k)) = true := by
  induction o with
  | nil => exact absurd rfl h
  | cons e rest ih =>
    by_cases he : e.1 = k
    · simp [List.any_cons, he]
    · rw [oget, if_neg he] at h
      simp [List.any_cons, ih h]

theorem occs_self_singleton (s : Shim) : occs s [s] = 1 := by
  simp [occs]

theorem capDistOccs_eq_zero (v : Option ShimValue) (g s : Shim)
    (h : occs s [g] = 0) : capDistOccs v g s = 0 := by
  match v with
  | some ShimValue.enabled => simpa [capDistOccs] using h
  | some ShimValue.dev => rfl
  | some ShimValue.disabled => rfl
  | none => rfl

theorem capTestOccs_eq_zero (v : Option ShimValue) (g s : Shim)
    (h : occs s [g] = 0) : capTestOccs v g s = 0 := by
  match v with
  | some ShimValue.enabled => simpa [capTestOccs] using h
  | some ShimValue.dev => simpa [capTestOccs] using h
  | some ShimValue.disabled => rfl
  | none => rfl

theorem denoDistOccs_eq_zero (d : Option DenoShimValue) (s : Shim)
    (h1 : occs s [getDenoShim ()] = 0) (h2 : occs s [getDenoTestShim ()] = 0) :
    denoDistOccs d s = 0 := by
  match d with
  | some (DenoShimValue.testObject t) => exact capDistOccs_eq_zero _ _ _ h2
  | some (DenoShimValue.value v) => exact capDistOccs_eq_zero _ _ _ h1
  | none => rfl

theorem denoTestOccs_eq_zero (d : Option DenoShimValue) (s : Shim)
    (h1 : occs s [getDenoShim ()] = 0) (h2 : occs s [getDenoTestShim ()] = 0) :
    denoTestOccs d s = 0 := by
  match d with
  | some (DenoShimValue.testObject t) => exact capTestOccs_eq_zero _ _ _ h2
  | some (DenoShimValue.value v) => exact capTestOccs_eq_zero _ _ _ h1
  | none => rfl

theorem capDistOccs_le_capTestOccs (v : Option ShimValue) (g s : Shim) :
    capDistOccs v g s ≤ capTestOccs v g s := by
  match v with
  | some ShimValue.enabled => exact Nat.le_refl _
  | some ShimValue.dev => exact Nat.zero_le _
  | some ShimValue.disabled => exact Nat.le_refl _
  | none => exact Nat.le_refl _

theorem denoDistOccs_le_denoTestOccs (d : Option DenoShimValue) (s : Shim) :
    denoDistOccs d s ≤ denoTestOccs d s := by
  match d with
  | some (DenoShimValue.testObject t) => exact capDistOccs_le_capTestOccs _ _ _
  | some (DenoShimValue.value v) => exact capDistOccs_le_capTestOccs _ _ _
  | none => exact Nat.le_refl _

/-- Per-capability counting rule: when a capability's option is in plain
form `v`, each output list contains the stage contribution of `v` for that
capability's descriptor, provided the custom lists do not contain it. -/
theorem cap_rule (o : ShimOptions) (c : Capability) (v : Option ShimValue)
    (h : capOption o c = some v)
    (hc : occs (capDescriptor c) (o.custom.getD []) = 0)
    (hcd : occs (capDescriptor c) (o.customDev.getD []) = 0) :
    occs (capDescriptor c) (shimOptionsToTransformShims o).1 =
      capDistOccs v (capDescriptor c) (capDescriptor c) ∧
    occs (capDescriptor c) (shimOptionsToTransformShims o).2 =
      capTestOccs v (capDescriptor c) (capDescriptor c) := by
  rw [occs_shims_fst, occs_shims_snd, hc, hcd]
  cases c with
  | deno =>
    simp only [capDescriptor]
    rw [capOption] at h
    cases hdo : o.deno with
    | none =>
      rw [hdo] at h
      have h2 : (some (none : Option ShimValue)) = some v := h
      have hv := (Option.some.inj h2).symm
      subst hv
      refine ⟨?_, ?_⟩
      · have hb := capDistOccs_eq_zero o.blob (getBlobShim ()) (getDenoShim ()) (by decide)
        have hcr := capDistOccs_eq_zero o.crypto (getCryptoShim ()) (getDenoShim ()) (by decide)
        have hp := capDistOccs_eq_zero o.prompts (getPromptsShim ()) (getDenoShim ()) (by decide)
        have ht := capDistOccs_eq_zero o.timers (getTimersShim ()) (getDenoShim ()) (by decide)
        have hu := capDistOccs_eq_zero o.undici (getUndiciShim ()) (getDenoShim ()) (by decide)
        have hd0 : denoDistOccs none (getDenoShim ()) = 0 := rfl
        have hr : capDistOccs (none : Option ShimValue) (getDenoShim ()) (getDenoShim ()) = 0 := rfl
        omega
      · have hb := capTestOccs_eq_zero o.blob (getBlobShim ()) (getDenoShim ()) (by decide)
        have hcr := capTestOccs_eq_zero o.crypto (getCryptoShim ()) (getDenoShim ()) (by decide)
        have hp := capTestOccs_eq_zero o.prompts (getPromptsShim ()) (getDenoShim ()) (by decide)
        have ht := capTestOccs_eq_zero o.timers (getTimersShim ()) (getDenoShim ()) (by decide)
        have hu := capTestOccs_eq_zero o.undici (getUndiciShim ()) (getDenoShim ()) (by decide)
        have hd0 : denoTestOccs none (getDenoShim ()) = 0 := rfl
        have hr : capTestOccs (none : Option ShimValue) (getDenoShim ()) (getDenoShim ()) = 0 := rfl
        omega
    | some dsv =>
      cases dsv with
      | value v2 =>
        rw [hdo] at h
        have h2 : (some (some v2) : Option (Option ShimValue)) = some v := h
        have hv := (Option.some.inj h2).symm
        subst hv
        refine ⟨?_, ?_⟩
        · have hb := capDistOccs_eq_zero o.blob (getBlobShim ()) (getDenoShim ()) (by decide)
          have hcr := capDistOccs_eq_zero o.crypto (getCryptoShim ()) (getDenoShim ()) (by decide)
          have hp := capDistOccs_eq_zero o.prompts (getPromptsShim ()) (getDenoShim ()) (by decide)
          have ht := capDistOccs_eq_zero o.timers (getTimersShim ()) (getDenoShim ()) (by decide)
          have hu := capDistOccs_eq_zero o.undici (getUndiciShim ()) (getDenoShim ()) (by decide)
          have hd : denoDistOccs (some (DenoShimValue.value v2)) (getDenoShim ()) =
              capDistOccs (some v2) (getDenoShim ()) (getDenoShim ()) := rfl
          omega
        · have hb := capTestOccs_eq_zero o.blob (getBlobShim ()) (getDenoShim ()) (by decide)
          have hcr := capTestOccs_eq_zero o.crypto (getCryptoShim ()) (getDenoShim ()) (by decide)
          have hp := capTestOccs_eq_zero o.prompts (getPromptsShim ()) (getDenoShim ()) (by decide)
          have ht := capTestOccs_eq_zero o.timers (getTimersShim ()) (getDenoShim ()) (by decide)
          have hu := capTestOccs_eq_zero o.undici (getUndiciShim ()) (getDenoShim ()) (by decide)
          have hd : denoTestOccs (some (DenoShimValue.value v2)) (getDenoShim ()) =
              capTestOccs (some v2) (getDenoShim ()) (getDenoShim ()) := rfl
          omega
      | testObject t =>
        rw [hdo] at h
        exact Option.noConfusion h
  | blob =>
    simp only [capDescriptor]
    rw [capOption] at h
    have hv : v = o.blob := (Option.some.inj h).symm
    subst hv
    refine ⟨?_, ?_⟩
    · have h1 := denoDistOccs_eq_zero o.deno (getBlobShim ()) (by decide) (by decide)
      have hcr := capDistOccs_eq_zero o.crypto (getCryptoShim ()) (getBlobShim ()) (by decide)
      have hp := capDistOccs_eq_zero o.prompts (getPromptsShim ()) (getBlobShim ()) (by decide)
      have ht := capDistOccs_eq_zero o.timers (getTimersShim ()) (getBlobShim ()) (by decide)
      have hu := capDistOccs_eq_zero o.undici (getUndiciShim ()) (getBlobShim ()) (by decide)
      omega
    · have h1 := denoTestOccs_eq_zero o.deno (getBlobShim ()) (by decide) (by decide)
      have hcr := capTestOccs_eq_zero o.crypto (getCryptoShim ()) (getBlobShim ()) (by decide)
      have hp := capTestOccs_eq_zero o.prompts (getPromptsShim ()) (getBlobShim ()) (by decide)
      have ht := capTestOccs_eq_zero o.timers (getTimersShim ()) (getBlobShim ()) (by decide)
      have hu := capTestOccs_eq_zero o.undici (getUndiciShim ()) (getBlobShim ()) (by decide)
      omega
  | crypto =>
    simp only [capDescriptor]
    rw [capOption] at h
    have hv : v = o.crypto := (Option.some.inj h).symm
    subst hv
    refine ⟨?_, ?_⟩
    · have h1 := denoDistOccs_eq_zero o.deno (getCryptoShim ()) (by decide) (by decide)
      have hb := capDistOccs_eq_zero o.blob (getBlobShim ()) (getCryptoShim ()) (by decide)
      have hp := capDistOccs_eq_zero o.prompts (getPromptsShim ()) (getCryptoShim ()) (by decide)
      have ht := capDistOccs_eq_zero o.timers (getTimersShim ()) (getCryptoShim ()) (by decide)
      have hu := capDistOccs_eq_zero o.undici (getUndiciShim ()) (getCryptoShim ()) (by decide)
      omega
    · have h1 := denoTestOccs_eq_zero o.deno (getCryptoShim ()) (by decide) (by decide)
      have hb := capTestOccs_eq_zero o.blob (getBlobShim ()) (getCryptoShim ()) (by decide)
      have hp := capTestOccs_eq_zero o.prompts (getPromptsShim ()) (getCryptoShim ()) (by decide)
      have ht := capTestOccs_eq_zero o.timers (getTimersShim ()) (getCryptoShim ()) (by decide)
      have hu := capTestOccs_eq_zero o.undici (getUndiciShim ()) (getCryptoShim ()) (by decide)
      omega
  | prompts =>
    simp only [capDescriptor]
    rw [capOption] at h
    have hv : v = o.prompts := (Option.some.inj h).symm
    subst hv
    refine ⟨?_, ?_⟩
    · have h1 := denoDistOccs_eq_zero o.deno (getPromptsShim ()) (by decide) (by decide)
      have hb := capDistOccs_eq_zero o.blob (getBlobShim ()) (getPromptsShim ()) (by decide)
      have hcr := capDistOccs_eq_zero o.crypto (getCryptoShim ()) (getPromptsShim ()) (by decide)
      have ht := capDistOccs_eq_zero o.timers (getTimersShim ()) (getPromptsShim ()) (by decide)
      have hu := capDistOccs_eq_zero o.undici (getUndiciShim ()) (getPromptsShim ()) (by decide)
      omega
    · have h1 := denoTestOccs_eq_zero o.deno (getPromptsShim ()) (by decide) (by decide)
      have hb := capTestOccs_eq_zero o.blob (getBlobShim ()) (getPromptsShim ()) (by decide)
      have hcr := capTestOccs_eq_zero o.crypto (getCryptoShim ()) (getPromptsShim ()) (by decide)
      have ht := capTestOccs_eq_zero o.timers (getTimersShim ()) (getPromptsShim ()) (by decide)
      have hu := capTestOccs_eq_zero o.undici (getUndiciShim ()) (getPromptsShim ()) (by decide)
      omega
  | timers =>
    simp only [capDescriptor]
    rw [capOption] at h
    have hv : v = o.timers := (Option.some.inj h).symm
    subst hv
    refine ⟨?_, ?_⟩
    · have h1 := denoDistOccs_eq_zero o.deno (getTimersShim ()) (by decide) (by decide)
      have hb := capDistOccs_eq_zero o.blob (getBlobShim ()) (getTimersShim ()) (by decide)
      have hcr := capDistOccs_eq_zero o.crypto (getCryptoShim ()) (getTimersShim ()) (by decide)
      have hp := capDistOccs_eq_zero o.prompts (getPromptsShim ()) (getTimersShim ()) (by decide)
      have hu := capDistOccs_eq_zero o.undici (getUndiciShim ()) (getTimersShim ()) (by decide)
      omega
    · have h1 := denoTestOccs_eq_zero o.deno (getTimersShim ()) (by decide) (by decide)
      have hb := capTestOccs_eq_zero o.blob (getBlobShim ()) (getTimersShim ()) (by decide)
      have hcr := capTestOccs_eq_zero o.crypto (getCryptoShim ()) (getTimersShim ()) (by decide)
      have hp := capTestOccs_eq_zero o.prompts (getPromptsShim ()) (getTimersShim ()) (by decide)
      have hu := capTestOccs_eq_zero o.undici (getUndiciShim ()) (getTimersShim ()) (by decide)
      omega
  | undici =>
    simp only [capDescriptor]
    rw [capOption] at h
    have hv : v = o.undici := (Option.some.inj h).symm
    subst hv
    refine ⟨?_, ?_⟩
    · have h1 := denoDistOccs_eq_zero o.deno (getUndiciShim ()) (by decide) (by decide)
      have hb := capDistOccs_eq_zero o.blob (getBlobShim ()) (getUndiciShim ()) (by decide)
      have hcr := capDistOccs_eq_zero o.crypto (getCryptoShim ()) (getUndiciShim ()) (by decide)
      have hp := capDistOccs_eq_zero o.prompts (getPromptsShim ()) (getUndiciShim ()) (by decide)
      have ht := capDistOccs_eq_zero o.timers (getTimersShim ()) (getUndiciShim ()) (by decide)
      omega
    · have h1 := denoTestOccs_eq_zero o.deno (getUndiciShim ()) (by decide) (by decide)
      have hb := capTestOccs_eq_zero o.blob (getBlobShim ()) (getUndiciShim ()) (by decide)
      have hcr := capTestOccs_eq_zero o.crypto (getCryptoShim ()) (getUndiciShim ()) (by decide)
      have hp := capTestOccs_eq_zero o.prompts (getPromptsShim ()) (getUndiciShim ()) (by decide)
      have ht := capTestOccs_eq_zero o.timers (getTimersShim ()) (getUndiciShim ()) (by decide)
      omega

/-- C2 counterexample: with `deno: { test: true }` the object form resolves
through the ordinary rule for `true`, so the narrower test-registration
descriptor lands in the distributed shim list — the claim says it never
appears there regardless of the object's `test` field. -/
theorem c2_object_form_counterexample :
    getDenoTestShim () ∈
      (shimOptionsToTransformShims
        { deno := some (DenoShimValue.testObject ShimValue.enabled) }).1 := by
  decide

/-- C2 (amended): when the runtime-namespace option is the object form, the
narrower test-registration descriptor is used and the full-namespace
descriptor never appears; the narrower descriptor is placed by the ordinary
`ShimValue` rule applied to the object's `test` field — both lists for
`true`, only the test list for `"dev"`, neither for `false` (assuming the
custom shim lists do not also contain these descriptors). -/
theorem c2_object_form_amended (o : ShimOptions) (t : ShimValue)
    (hd : o.deno = some (DenoShimValue.testObject t))
    (h1 : occs (getDenoShim ()) (o.custom.getD []) = 0)
    (h2 : occs (getDenoShim ()) (o.customDev.getD []) = 0)
    (h3 : occs (getDenoTestShim ()) (o.custom.getD []) = 0)
    (h4 : occs (getDenoTestShim ()) (o.customDev.getD []) = 0) :
    occs (getDenoShim ()) (shimOptionsToTransformShims o).1 = 0 ∧
    occs (getDenoShim ()) (shimOptionsToTransformShims o).2 = 0 ∧
    occs (getDenoTestShim ()) (shimOptionsToTransformShims o).1 =
      (if t = ShimValue.enabled then 1 else 0) ∧
    occs (getDenoTestShim ()) (shimOptionsToTransformShims o).2 =
      (if t = ShimValue.disabled then 0 else 1) := by
  refine ⟨?_, ?_, ?_, ?_⟩
  · rw [occs_shims_fst, h1, hd]
    have hdeno : denoDistOccs (some (DenoShimValue.testObject t)) (getDenoShim ()) = 0 := by
      cases t <;> decide
    have hb := capDistOccs_eq_zero o.blob (getBlobShim ()) (getDenoShim ()) (by decide)
    have hcr := capDistOccs_eq_zero o.crypto (getCryptoShim ()) (getDenoShim ()) (by decide)
    have hp := capDistOccs_eq_zero o.prompts (getPromptsShim ()) (getDenoShim ()) (by decide)
    have ht := capDistOccs_eq_zero o.timers (getTimersShim ()) (getDenoShim ()) (by decide)
    have hu := capDistOccs_eq_zero o.undici (getUndiciShim ()) (getDenoShim ()) (by decide)
    omega
  · rw [occs_shims_snd, h1, h2, hd]
    have hdeno : denoTestOccs (some (DenoShimValue.testObject t)) (getDenoShim ()) = 0 := by
      cases t <;> decide
    have hb := capTestOccs_eq_zero o.blob (getBlobShim ()) (getDenoShim ()) (by decide)
    have hcr := capTestOccs_eq_zero o.crypto (getCryptoShim ()) (getDenoShim ()) (by decide)
    have hp := capTestOccs_eq_zero o.prompts (getPromptsShim ()) (getDenoShim ()) (by decide)
    have ht := capTestOccs_eq_zero o.timers (getTimersShim ()) (getDenoShim ()) (by decide)
    have hu := capTestOccs_eq_zero o.undici (getUndiciShim ()) (getDenoShim ()) (by decide)
    omega
  · rw [occs_shims_fst, h3, hd]
    have hdeno : denoDistOccs (some (DenoShimValue.testObject t)) (getDenoTestShim ()) =
        (if t = ShimValue.enabled then 1 else 0) := by
      cases t <;> decide
    have hb := capDistOccs_eq_zero o.blob (getBlobShim ()) (getDenoTestShim ()) (by decide)
    have hcr := capDistOccs_eq_zero o.crypto (getCryptoShim ()) (getDenoTestShim ()) (by decide)
    have hp := capDistOccs_eq_zero o.prompts (getPromptsShim ()) (getDenoTestShim ()) (by decide)
    have ht := capDistOccs_eq_zero o.timers (getTimersShim ()) (getDenoTestShim ()) (by decide)
    have hu := capDistOccs_eq_zero o.undici (getUndiciShim ()) (getDenoTestShim ()) (by decide)
    omega
  · rw [occs_shims_snd, h3, h4, hd]
    have hdeno : denoTestOccs (some (DenoShimValue.testObject t)) (getDenoTestShim ()) =
        (if t = ShimValue.disabled then 0 else 1) := by
      cases t <;> decide
    have hb := capTestOccs_eq_zero o.blob (getBlobShim ()) (getDenoTestShim ()) (by decide)
    have hcr := capTestOccs_eq_zero o.crypto (getCryptoShim ()) (getDenoTestShim ()) (by decide)
    have hp := capTestOccs_eq_zero o.prompts (getPromptsShim ()) (getDenoTestShim ()) (by decide)
    have ht := capTestOccs_eq_zero o.timers (getTimersShim ()) (getDenoTestShim ()) (by decide)
    have hu := capTestOccs_eq_zero o.undici (getUndiciShim ()) (getDenoTestShim ()) (by decide)
    omega

/-- C2 witness: the amended theorem applied to `deno: { test: true }`. -/
theorem c2_object_form_amended_witness :
    occs (getDenoTestShim ())
      (shimOptionsToTransformShims
        { deno := some (DenoShimValue.testObject ShimValue.enabled) }).1 = 1 := by
  have h := (c2_object_form_amended
    { deno := some (DenoShimValue.testObject ShimValue.enabled) }
    ShimValue.enabled rfl rfl rfl rfl rfl).2.2.1
  simpa using h

/-- C3 counterexample: with the `blob` capability absent but the same
descriptor supplied through `custom`, the blob descriptor appears in both
lists — the claim requires it to appear in neither when the option is
absent. -/
theorem c3_capability_rule_counterexample :
    getBlobShim () ∈
      (shimOptionsToTransformShims { custom := some [getBlobShim ()] }).1 ∧
    getBlobShim () ∈
      (shimOptionsToTransformShims { custom := some [getBlobShim ()] }).2 :=
  ⟨by decide, by decide⟩

/-- C3 (amended): for every configuration and every capability whose option
is in plain form, and whose descriptor does not occur among the
user-supplied `custom`/`customDev` shims: `true` puts the descriptor
exactly once in both lists, `"dev"` exactly once in the test list and not
in the distributed list, `false`/absent in neither. -/
theorem c3_capability_rule_amended (o : ShimOptions) (c : Capability)
    (hc : occs (capDescriptor c) (o.custom.getD []) = 0)
    (hcd : occs (capDescriptor c) (o.customDev.getD []) = 0) :
    (capOption o c = some (some ShimValue.enabled) →
      occs (capDescriptor c) (shimOptionsToTransformShims o).1 = 1 ∧
      occs (capDescriptor c) (shimOptionsToTransformShims o).2 = 1) ∧
    (capOption o c = some (some ShimValue.dev) →
      occs (capDescriptor c) (shimOptionsToTransformShims o).1 = 0 ∧
      occs (capDescriptor c) (shimOptionsToTransformShims o).2 = 1) ∧
    ((capOption o c = some (some ShimValue.disabled) ∨ capOption o c = some none) →
      occs (capDescriptor c) (shimOptionsToTransformShims o).1 = 0 ∧
      occs (capDescriptor c) (shimOptionsToTransformShims o).2 = 0) := by
  refine ⟨?_, ?_, ?_⟩
  · intro h
    have hr := cap_rule o c (some ShimValue.enabled) h hc hcd
    rw [hr.1, hr.2]
    constructor <;> simp [capDistOccs, capTestOccs, occs_self_singleton]
  · intro h
    have hr := cap_rule o c (some ShimValue.dev) h hc hcd
    rw [hr.1, hr.2]
    constructor
    · rfl
    · simp [capTestOccs, occs_self_singleton]
  · intro h
    rcases h with h | h
    · have hr := cap_rule o c (some ShimValue.disabled) h hc hcd
      rw [hr.1, hr.2]
      exact ⟨rfl, rfl⟩
    · have hr := cap_rule o c none h hc hcd
      rw [hr.1, hr.2]
      exact ⟨rfl, rfl⟩

/-- C3 witness: the amended theorem at `blob: true`. -/
theorem c3_capability_rule_amended_witness :
    occs (capDescriptor Capability.blob)
      (shimOptionsToTransformShims { blob := some ShimValue.enabled }).1 = 1 ∧
    occs (capDescriptor Capability.blob)
      (shimOptionsToTransformShims { blob := some ShimValue.enabled }).2 = 1 :=
  (c3_capability_rule_amended { blob := some ShimValue.enabled }
    Capability.blob rfl rfl).1 rfl

/-- C10: every descriptor placed in the distributed shim list also appears
in the test shim list — capability shims enabled with `true` and `custom`
shims go to both lists, while `"dev"` and `customDev` additions only extend
the test list, so the test list is a superset of the distributed one. -/
theorem c10_test_superset (o : ShimOptions) (s : Shim)
    (h : s ∈ (shimOptionsToTransformShims o).1) :
    s ∈ (shimOptionsToTransformShims o).2 := by
  rw [← occs_pos_iff_mem] at h ⊢
  rw [occs_shims_fst] at h
  rw [occs_shims_snd]
  have h1 := denoDistOccs_le_denoTestOccs o.deno s
  have h2 := capDistOccs_le_capTestOccs o.blob (getBlobShim ()) s
  have h3 := capDistOccs_le_capTestOccs o.crypto (getCryptoShim ()) s
  have h4 := capDistOccs_le_capTestOccs o.prompts (getPromptsShim ()) s
  have h5 := capDistOccs_le_capTestOccs o.timers (getTimersShim ()) s
  have h6 := capDistOccs_le_capTestOccs o.undici (getUndiciShim ()) s
  omega

/-- C10 witness: with `blob: true` the blob descriptor is in the
distributed list, hence also in the test list. -/
theorem c10_test_superset_witness :
    getBlobShim () ∈
      (shimOptionsToTransformShims { blob := some ShimValue.enabled }).2 :=
  c10_test_superset _ _ (by decide)

/-- C1: a non-ignored test node whose body completes without throwing is
reported as failing exactly when a direct child context is `fail` or
`pending` at that moment, and `ok` otherwise — at the top level the run
records a `fail` outcome for the definition, and for a step the stored
status becomes `fail` and the step call returns `false`; otherwise `ok`
with the step returning `true`. -/
theorem c1_nonignored_reporting :
    (∀ d : TestDefinition, d.ignored = false → (runBody d.fn).2.1 = false →
      ((anyFailingOrPending (runBody d.fn).1 = true →
        (runDef d).1 = RunOutcome.fail) ∧
       (anyFailingOrPending (runBody d.fn).1 = false →
        (runDef d).1 = RunOutcome.ok))) ∧
    (∀ (n : String) (b : TestBody), (runBody b).2.1 = false →
      ((anyFailingOrPending (runBody b).1 = true →
        (stepEval n false b).1.status = TestStatus.fail ∧
        (stepEval n false b).2.1 = false) ∧
       (anyFailingOrPending (runBody b).1 = false →
        (stepEval n false b).1.status = TestStatus.ok ∧
        (stepEval n false b).2.1 = true))) := by
  constructor
  · intro d hig hthrow
    constructor <;> intro hany <;> simp [runDef, hig, hthrow, hany]
  · intro n b hthrow
    constructor <;> intro hany <;>
      simp [stepEval, hthrow, hany, TestContext.status]

/-- C1 witness: a test whose body starts a step without awaiting it leaves
a `pending` child and is reported failing; the same shape inside a step
turns the step's status to `fail`. -/
theorem c1_nonignored_reporting_witness :
    (runDef { name := "t", ignored := false,
              fn := TestBody.stepSpawned "s" false TestBody.ret TestBody.ret }).1 =
      RunOutcome.fail ∧
    (stepEval "outer" false
      (TestBody.stepSpawned "x" false TestBody.ret TestBody.ret)).1.status =
      TestStatus.fail := by
  constructor
  · exact (c1_nonignored_reporting.1
      { name := "t", ignored := false,
        fn := TestBody.stepSpawned "s" false TestBody.ret TestBody.ret }
      rfl rfl).1 rfl
  · exact ((c1_nonignored_reporting.2 "outer"
      (TestBody.stepSpawned "x" false TestBody.ret TestBody.ret) rfl).1 rfl).1

/-- C9: an ignored definition or step never invokes its body — the
top-level runner reports ` ignored` and continues with the remaining
definitions contributing nothing to the invocation log, and an ignored
step's context is set to `ignored` with the step returning `false` and an
empty invocation log. -/
theorem c9_ignored_never_invoked :
    (∀ (d : TestDefinition) (rest : List TestDefinition), d.ignored = true →
      runTestDefinitions (d :: rest) =
        ((d.name, RunOutcome.ignored) :: (runTestDefinitions rest).1,
          (runTestDefinitions rest).2)) ∧
    (∀ (n : String) (b : TestBody),
      stepEval n true b = (TestContext.mk n TestStatus.ignored [], false, [])) := by
  constructor
  · intro d rest h
    simp [runTestDefinitions, runDef, h]
  · intro n b
    simp [stepEval]

/-- C9 witness: concrete ignored definitions with throwing bodies — the
bodies are never invoked. -/
theorem c9_ignored_never_invoked_witness :
    runTestDefinitions [{ name := "t", ignored := true, fn := TestBody.raise }] =
      ([("t", RunOutcome.ignored)], []) ∧
    stepEval "s" true TestBody.raise =
      (TestContext.mk "s" TestStatus.ignored [], false, []) := by
  constructor
  · have h := c9_ignored_never_invoked.1
      { name := "t", ignored := true, fn := TestBody.raise } [] rfl
    simpa [runTestDefinitions] using h
  · exact c9_ignored_never_invoked.2 "s" TestBody.raise

/-- C7 counterexample: with a single entry point whose CommonJS pass has a
failing test, the harness exits with code 1 at the end of that pass and the
ESM build of the same entry point is never loaded or drained — the claim
requires the ESM pass of every entry point to run. -/
theorem c7_harness_order_counterexample :
    harnessMain [c7Module] = ([("mod.js", ModuleFormat.cjs)], 1) ∧
    ("mod.js", ModuleFormat.esm) ∉ (harnessMain [c7Module]).1 := by
  constructor
  · rfl
  · decide

/-- C7 (amended): entry points are processed in list order and for each one
the CommonJS drain pass precedes the ESM drain pass, but the run stops at
the end of the first drain pass that records a failure: the executed passes
are the canonical pass sequence truncated after the first failing pass, and
the exit code is 1 exactly when such a pass ran (0 otherwise). -/
theorem c7_harness_order_amended (eps : List EntryPointModule) :
    (harnessMain eps).1 = (runUntilFirstFail (passSeq eps)).1 ∧
    (harnessMain eps).2 =
      (if (runUntilFirstFail (passSeq eps)).2 then 1 else 0) := by
  induction eps with
  | nil => exact ⟨rfl, rfl⟩
  | cons ep rest ih =>
    by_cases hc : drainFails ep.cjsDefs
    · simp [harnessMain, passSeq, runUntilFirstFail, hc]
    · by_cases he : drainFails ep.esmDefs
      · simp [harnessMain, passSeq, runUntilFirstFail, hc, he]
      · simp [harnessMain, passSeq, runUntilFirstFail, hc, he, ih.1, ih.2]

/-- An awaited step inside `runBody` behaves exactly like the standalone
`stepEval` translation of the source's `step` function. -/
theorem runBody_stepAwaited (n : String) (ig : Bool) (b rest : TestBody) :
    runBody (TestBody.stepAwaited n ig b rest) =
      ((stepEval n ig b).1 :: (runBody rest).1, (runBody rest).2.1,
        (stepEval n ig b).2.2 ++ (runBody rest).2.2) := by
  cases ig with
  | false =>
    by_cases h1 : (runBody b).2.1
    · simp [runBody, stepEval, h1]
    · by_cases h2 : anyFailingOrPending (runBody b).1
      · simp [runBody, stepEval, h1, h2]
      · simp [runBody, stepEval, h1, h2]
  | true => simp [runBody, stepEval]

/-- C4: the manifest's `dependencies` object is the computed dependency
merge, and per key that merge resolves, later sources overriding earlier
ones, to: user-declared `dependencies`, else the shim package entry (only
when the distributed transform used the shim), else specifier mappings
declaring a version, else the transform output's dependencies. -/
theorem c4_dependency_merge (i : BuildInput) (m : JsObj)
    (h : createPackageJson i = some m) :
    oget m "dependencies" = some (JsVal.obj (dependenciesObj i)) ∧
    (∀ k, oget (dependenciesObj i) k = claimedDependencyMerge i k) := by
  constructor
  · cases heps : i.transformOutput.entryPoints with
    | nil =>
      simp only [createPackageJson, heps] at h
      exact Option.noConfusion h
    | cons ep rest =>
      simp only [createPackageJson, heps] at h
      have hm := Option.some.inj h
      subst hm
      simp only [packageJsonObj]
      rw [oget_oset, if_neg (by decide), oget_oset, if_pos rfl]
  · intro k
    simp only [dependenciesObj]
    rw [oget_spread, oget_spread, oget_spread, oget_spread]
    have hnil : oget ([] : JsObj) k = none := rfl
    rw [hnil, ofirst_none_right]
    simp only [claimedDependencyMerge]
    have hshim : lookupLast (shimDepEntries i) k =
        (if i.transformOutput.shimUsed && decide (k = i.shimPackage.name)
         then some (JsVal.str i.shimPackage.version) else none) := by
      simp only [shimDepEntries]
      cases hs : i.transformOutput.shimUsed
      · simp [lookupLast]
      · by_cases hk : k = i.shimPackage.name
        · subst hk
          simp [lookupLast]
        · simp [lookupLast, hk, Ne.symm hk]
    rw [hshim]

/-- C4 witness: the theorem applied to an input exercising all four
dependency sources, read at the shim package's key. -/
theorem c4_dependency_merge_witness :
    oget (packageJsonObj c4Input "mod.ts") "dependencies" =
      some (JsVal.obj (dependenciesObj c4Input)) ∧
    oget (dependenciesObj c4Input) "deno.ns" =
      claimedDependencyMerge c4Input "deno.ns" :=
  ⟨(c4_dependency_merge c4Input (packageJsonObj c4Input "mod.ts") rfl).1,
   (c4_dependency_merge c4Input (packageJsonObj c4Input "mod.ts") rfl).2 "deno.ns"⟩

/-- C5 counterexample: with a user-supplied `exports["."]` containing only
an `import` key, the generated `exports["."]` still contains the default
`require` entry alongside the user's `import` — the defaults are merged
into the user object rather than the user field winning outright. -/
theorem c5_entry_point_fields_counterexample :
    createPackageJson c5Input = some (packageJsonObj c5Input "mod.ts") ∧
    oget (ogetObj (ogetObj (packageJsonObj c5Input "mod.ts") "exports") ".")
      "import" = some (JsVal.str "./custom.js") ∧
    oget (ogetObj (ogetObj (packageJsonObj c5Input "mod.ts") "exports") ".")
      "require" = some (JsVal.str "./cjs/mod.js") :=
  ⟨rfl, rfl, rfl⟩

/-- C5 (amended): `main`, `module` and `types` default to the derived
`./cjs`, `./esm`, `./types` paths from the first entry point and a
user-supplied field wins outright; `exports["."]` is instead assembled from
the defaults with the user's `exports["."]` entries spread last — user keys
override individually, but defaults survive for keys the user does not
supply. -/
theorem c5_entry_point_fields_amended (i : BuildInput) (ep : String)
    (rest : List String) (m : JsObj)
    (h1 : i.transformOutput.entryPoints = ep :: rest)
    (h2 : createPackageJson i = some m) :
    oget m "main" = some ((ogetDefined i.package "main").getD (mainDefault ep)) ∧
    oget m "module" = some ((ogetDefined i.package "module").getD (moduleDefault ep)) ∧
    oget m "types" = some ((ogetDefined i.package "types").getD (typesDefault ep)) ∧
    oget m "exports" = some (JsVal.obj (exportsObj i ep)) ∧
    oget (exportsObj i ep) "." = some (JsVal.obj (exportsDotObj i ep)) ∧
    (∀ k, oget (exportsDotObj i ep) k =
      ofirst (lookupLast (userDotEntries i) k) (oget (exportsDotDefaults i ep) k)) := by
  simp only [createPackageJson, h1] at h2
  have hm := Option.some.inj h2
  subst hm
  refine ⟨?_, ?_, ?_, ?_, ?_, ?_⟩
  · simp only [packageJsonObj]
    rw [oget_oset, if_neg (by decide), oget_oset, if_neg (by decide),
        oget_oset, if_neg (by decide), oget_oset, if_neg (by decide),
        oget_oset, if_neg (by decide), oget_oset, if_pos rfl]
  · simp only [packageJsonObj]
    rw [oget_oset, if_neg (by decide), oget_oset, if_neg (by decide),
        oget_oset, if_neg (by decide), oget_oset, if_neg (by decide),
        oget_oset, if_neg (by decide), oget_oset, if_neg (by decide),
        oget_oset, if_pos rfl]
  · simp only [packageJsonObj, typesVal]
    rw [oget_oset, if_neg (by decide), oget_oset, if_neg (by decide),
        oget_oset, if_neg (by decide), oget_oset, if_neg (by decide),
        oget_oset, if_pos rfl]
  · simp only [packageJsonObj]
    rw [oget_oset, if_neg (by decide), oget_oset, if_neg (by decide),
        oget_oset, if_neg (by decide), oget_oset, if_pos rfl]
  · simp only [exportsObj]
    rw [oget_oset, if_pos rfl]
  · intro k
    simp only [exportsDotObj]
    rw [oget_spread]

/-- C5 witness: the amended theorem at the concrete input whose template
overrides `exports["."].import`. -/
theorem c5_entry_point_fields_amended_witness :
    oget (packageJsonObj c5Input "mod.ts") "main" =
      some ((ogetDefined c5Input.package "main").getD (mainDefault "mod.ts")) ∧
    oget (exportsObj c5Input "mod.ts") "." =
      some (JsVal.obj (exportsDotObj c5Input "mod.ts")) :=
  ⟨(c5_entry_point_fields_amended c5Input "mod.ts" []
      (packageJsonObj c5Input "mod.ts") rfl rfl).1,
   (c5_entry_point_fields_amended c5Input "mod.ts" []
      (packageJsonObj c5Input "mod.ts") rfl rfl).2.2.2.2.1⟩

/-- C6 counterexample: a template declaring the shim package in both
`dependencies` and `devDependencies` yields a manifest whose
`devDependencies` contains the shim package name even though it is a key of
the computed runtime `dependencies` — the claim forbids that for every
build input with tests. -/
theorem c6_dev_shim_counterexample :
    oget (dependenciesObj c6CexInput) "deno.ns" = some (JsVal.str "0.5.0") ∧
    oget (ogetObj (packageJsonObj c6CexInput "mod.ts") "devDependencies")
      "deno.ns" = some (JsVal.str "0.5.0") :=
  ⟨rfl, rfl⟩

/-- C6 (amended): with tests, the manifest's `devDependencies` is the dev
merge, and it lacks the shim package name whenever that name is already a
key of the computed runtime `dependencies` — provided the name also does
not occur among the test-transform dependencies or the user-declared
`devDependencies`, the only other sources of dev entries. -/
theorem c6_dev_shim_amended (i : BuildInput) (t : TestOutput)
    (h1 : i.testOutput = some t)
    (h2 : lookupLast (testDepEntries t) i.shimPackage.name = none)
    (h3 : lookupLast (userDevDepEntries i) i.shimPackage.name = none)
    (h4 : oget (dependenciesObj i) i.shimPackage.name ≠ none) :
    devDependenciesVal i = JsVal.obj (devDependenciesObj i t) ∧
    oget (devDependenciesObj i t) i.shimPackage.name = none := by
  constructor
  · simp only [devDependenciesVal, h1]
  · simp only [devDependenciesObj]
    rw [oget_spread, h3, ofirst_none, oget_spread]
    have hshim : devShimEntries i t = [] := by
      simp only [devShimEntries]
      rw [any_key_of_oget _ _ h4]
      simp
    rw [hshim, oget_spread, h2]
    rfl

/-- C6 witness: the amended theorem at an input whose runtime dependencies
already contain the shim package and whose test build used the shim. -/
theorem c6_dev_shim_amended_witness :
    oget (devDependenciesObj c6WitnessInput
      { entryPoints := [], shimUsed := true, dependencies := [] })
      "deno.ns" = none :=
  (c6_dev_shim_amended c6WitnessInput
    { entryPoints := [], shimUsed := true, dependencies := [] }
    rfl rfl rfl (fun hh => Option.noConfusion hh)).2

/-- C8: manifest generation is a pure function of its inputs — identical
`(transform output, test output, configuration)` inputs produce
byte-for-byte identical serialized JSON text. -/
theorem c8_manifest_deterministic (a b : BuildInput) (h : a = b) :
    createPackageJsonText a = createPackageJsonText b := by
  rw [h]

/-- C8 witness: the determinism theorem at a concrete build input. -/
theorem c8_manifest_deterministic_witness :
    createPackageJsonText c8Input = createPackageJsonText c8Input :=
  c8_manifest_deterministic c8Input c8Input rfl
